import Mathlib

/-!
Verification of `glm/core/func_vector_relational.hpp` (OpenGL Mathematics).

A GLM vector type `vecType<T>` is a fixed-size indexable container of `N`
scalars; its parallel boolean variant `vecType<T>::bool_type` has the same
component count.  We embed `vecType<T>` with component count `n` as
`Fin n → T`.  Each source function builds its result by first constructing
the null (all-false) boolean vector `vecType<bool>::null` and then running
a loop `for i = 0 .. value_size()-1` that writes index `i`; we mirror that
write loop literally as a left fold of `Function.update` over
`List.finRange n`, and the reductions `any` / `all` as left folds of
`||` / `&&` starting from `false` / `true`, exactly as in the source.
-/

namespace glm

/-- `vecType<bool>::null`: the zero-initialised boolean vector used as the
starting value of every result-building loop. -/
def nullBool (n : Nat) : Fin n → Bool :=
  fun _ => false

/-- The result-building loop shared by all component-wise functions:
starting from `vecType<bool>::null`, for `i = 0, 1, ..., value_size()-1`
perform `Result[i] = f i`. -/
def fillLoop {n : Nat} (f : Fin n → Bool) : Fin n → Bool :=
  (List.finRange n).foldl (fun R i => Function.update R i (f i)) (nullBool n)

/-- `glm::lessThan`: component-wise `x[i] < y[i]`. -/
def lessThan {T : Type} [LinearOrder T] {n : Nat} (x y : Fin n → T) :
    Fin n → Bool :=
  fillLoop (fun i => decide (x i < y i))

/-- `glm::lessThanEqual`: component-wise `x[i] <= y[i]`. -/
def lessThanEqual {T : Type} [LinearOrder T] {n : Nat} (x y : Fin n → T) :
    Fin n → Bool :=
  fillLoop (fun i => decide (x i ≤ y i))

/-- `glm::greaterThan`: component-wise `x[i] > y[i]`. -/
def greaterThan {T : Type} [LinearOrder T] {n : Nat} (x y : Fin n → T) :
    Fin n → Bool :=
  fillLoop (fun i => decide (x i > y i))

/-- `glm::greaterThanEqual`: component-wise `x[i] >= y[i]`. -/
def greaterThanEqual {T : Type} [LinearOrder T] {n : Nat} (x y : Fin n → T) :
    Fin n → Bool :=
  fillLoop (fun i => decide (x i ≥ y i))

/-- `glm::equal`: component-wise `x[i] == y[i]`. -/
def equal {T : Type} [DecidableEq T] {n : Nat} (x y : Fin n → T) :
    Fin n → Bool :=
  fillLoop (fun i => decide (x i = y i))

/-- `glm::notEqual`: component-wise `x[i] != y[i]`. -/
def notEqual {T : Type} [DecidableEq T] {n : Nat} (x y : Fin n → T) :
    Fin n → Bool :=
  fillLoop (fun i => decide (x i ≠ y i))

/-- `glm::any`: `Result = false; for i: Result = Result || v[i]`. -/
def any {n : Nat} (v : Fin n → Bool) : Bool :=
  (List.finRange n).foldl (fun R i => R || v i) false

/-- `glm::all`: `Result = true; for i: Result = Result && v[i]`. -/
def all {n : Nat} (v : Fin n → Bool) : Bool :=
  (List.finRange n).foldl (fun R i => R && v i) true

/-- `glm::not_`: component-wise logical complement `!v[i]`. -/
def not_ {n : Nat} (v : Fin n → Bool) : Fin n → Bool :=
  fillLoop (fun i => !v i)

/-- The list of components of a vector in index order, i.e. the sequence
`v[0], v[1], ..., v[value_size()-1]`; its length is the element count
`value_size()` of the vector. -/
def components {A : Type} {n : Nat} (v : Fin n → A) : List A :=
  (List.finRange n).map v

end glm

/-! ### Helper lemmas about the loops -/

/-- Reading index `j` after a sequence of writes `R[i] = f i` for `i ∈ l`
gives `f j` when `j` was written, and the original entry otherwise. -/
lemma foldl_update_apply {n : Nat} (f : Fin n → Bool) (l : List (Fin n))
    (R : Fin n → Bool) (j : Fin n) :
    (l.foldl (fun R i => Function.update R i (f i)) R) j =
      if j ∈ l then f j else R j := by
  induction l generalizing R with
  | nil => simp
  | cons a l ih =>
    simp only [List.foldl_cons, ih, List.mem_cons]
    by_cases hj : j ∈ l
    · simp [hj]
    · by_cases hja : j = a
      · subst hja; simp [hj, Function.update_apply]
      · simp [hj, hja, Function.update_apply]

/-- The result-building loop writes every index, so the final vector is
exactly the per-index function. -/
lemma glm.fillLoop_apply {n : Nat} (f : Fin n → Bool) (j : Fin n) :
    glm.fillLoop f j = f j := by
  unfold glm.fillLoop
  rw [foldl_update_apply]
  simp [List.mem_finRange]

/-- Folding `||` over a list starting from `b` is `b` or-ed with the
disjunction over the list. -/
lemma foldl_or_eq {A : Type} (v : A → Bool) (l : List A) (b : Bool) :
    l.foldl (fun R i => R || v i) b = (b || l.any v) := by
  induction l generalizing b with
  | nil => simp
  | cons a l ih => simp [List.foldl_cons, ih, Bool.or_assoc]

/-- Folding `&&` over a list starting from `b` is `b` and-ed with the
conjunction over the list. -/
lemma foldl_and_eq {A : Type} (v : A → Bool) (l : List A) (b : Bool) :
    l.foldl (fun R i => R && v i) b = (b && l.all v) := by
  induction l generalizing b with
  | nil => simp
  | cons a l ih => simp [List.foldl_cons, ih, Bool.and_assoc]

/-- `glm::any` is true exactly when some component is true. -/
lemma glm.any_eq_true_iff {n : Nat} (v : Fin n → Bool) :
    glm.any v = true ↔ ∃ i, v i = true := by
  unfold glm.any
  rw [foldl_or_eq]
  simp [List.any_eq_true, List.mem_finRange]

/-- `glm::all` is true exactly when every component is true. -/
lemma glm.all_eq_true_iff {n : Nat} (v : Fin n → Bool) :
    glm.all v = true ↔ ∀ i, v i = true := by
  unfold glm.all
  rw [foldl_and_eq]
  simp [List.all_eq_true, List.mem_finRange]

/-- Each component of `glm::not_` is the logical complement. -/
lemma glm.not_apply {n : Nat} (v : Fin n → Bool) (i : Fin n) :
    glm.not_ v i = !(v i) :=
  glm.fillLoop_apply _ i

/-! ### Scratch checks on the spec's concrete scenarios -/

example : glm.lessThan ![1, 2, 3] ![3, 2, 1] = ![true, false, false] := by
  funext i
  fin_cases i <;> decide

example : glm.equal ![(1 : Int), 2, 3] ![3, 2, 1] = ![false, true, false] := by
  funext i
  fin_cases i <;> decide

example : glm.any ![true, false] = true := by decide

example : glm.all ![true, false] = false := by decide

example : glm.not_ ![true, false] = ![false, true] := by
  funext i
  fin_cases i <;> decide

example : glm.notEqual ![(0 : Int), 0] ![0, 0] = ![false, false] := by
  funext i
  fin_cases i <;> decide

/-! ### Claims -/

/-- C1: for every pair of same-size, same-scalar-type vectors `x` and `y`
and every index `i`, each component-wise comparison returns a boolean
vector of the same size whose `i`-th component is the corresponding scalar
comparison of `x[i]` and `y[i]`: `lessThan` uses `<`, `lessThanEqual` uses
`<=`, `greaterThan` uses `>`, `greaterThanEqual` uses `>=`, `equal` uses
`==`, and `notEqual` uses `!=`. -/
theorem C1_componentwise_comparisons {T : Type} [LinearOrder T] {n : Nat}
    (x y : Fin n → T) (i : Fin n) :
    glm.lessThan x y i = decide (x i < y i) ∧
    glm.lessThanEqual x y i = decide (x i ≤ y i) ∧
    glm.greaterThan x y i = decide (x i > y i) ∧
    glm.greaterThanEqual x y i = decide (x i ≥ y i) ∧
    glm.equal x y i = decide (x i = y i) ∧
    glm.notEqual x y i = decide (x i ≠ y i) := by
  refine ⟨?_, ?_, ?_, ?_, ?_, ?_⟩ <;> exact glm.fillLoop_apply _ i

/-- C2: `any v` is true iff at least one component of `v` is true; it is
false when every component is false, and false on a zero-length vector. -/
theorem C2_any_spec {n : Nat} (v : Fin n → Bool) :
    (glm.any v = true ↔ ∃ i, v i = true) ∧
    ((∀ i, v i = false) → glm.any v = false) ∧
    (∀ w : Fin 0 → Bool, glm.any w = false) := by
  refine ⟨glm.any_eq_true_iff v, ?_, ?_⟩
  · intro h
    rw [← Bool.not_eq_true, glm.any_eq_true_iff]
    rintro ⟨i, hi⟩
    rw [h i] at hi
    exact Bool.false_ne_true hi
  · intro w
    rfl

/-- Witness for C2 at the concrete all-false vector `(false, false)`. -/
theorem C2_any_spec_witness : glm.any ![false, false] = false :=
  (C2_any_spec ![false, false]).2.1 (by decide)

/-- C3: `all v` is true iff every component of `v` is true; it is true on
a zero-length vector. -/
theorem C3_all_spec {n : Nat} (v : Fin n → Bool) :
    (glm.all v = true ↔ ∀ i, v i = true) ∧
    (∀ w : Fin 0 → Bool, glm.all w = true) := by
  exact ⟨glm.all_eq_true_iff v, fun w => rfl⟩

/-- Witness for C3 at the concrete all-true vector `(true, true)`. -/
theorem C3_all_spec_witness : glm.all ![true, true] = true :=
  (C3_all_spec ![true, true]).1.mpr (by decide)

/-- C4: the logical complement `not_` returns a boolean vector of the same
size whose component at each index `i` is the negation of `v[i]`. -/
theorem C4_not_spec {n : Nat} (v : Fin n → Bool) (i : Fin n) :
    glm.not_ v i = !(v i) ∧
    (glm.components (glm.not_ v)).length = (glm.components v).length := by
  exact ⟨glm.not_apply v i, by simp [glm.components]⟩

/-- C5: every type-correct call of the nine operations is total: it
terminates and returns a fully defined result, with no runtime error
path.  Each operation of the embedding is a total function, so every
application is equal to an explicit value. -/
theorem C5_totality {T : Type} [LinearOrder T] {n : Nat}
    (x y : Fin n → T) (v : Fin n → Bool) :
    (∃ r, glm.lessThan x y = r) ∧
    (∃ r, glm.lessThanEqual x y = r) ∧
    (∃ r, glm.greaterThan x y = r) ∧
    (∃ r, glm.greaterThanEqual x y = r) ∧
    (∃ r, glm.equal x y = r) ∧
    (∃ r, glm.notEqual x y = r) ∧
    (∃ b, glm.any v = b) ∧
    (∃ b, glm.all v = b) ∧
    (∃ r, glm.not_ v = r) := by
  exact ⟨⟨_, rfl⟩, ⟨_, rfl⟩, ⟨_, rfl⟩, ⟨_, rfl⟩, ⟨_, rfl⟩, ⟨_, rfl⟩,
    ⟨_, rfl⟩, ⟨_, rfl⟩, ⟨_, rfl⟩⟩

/-- C6: for every vector `x`, `equal x x` is all-true and `notEqual x x`
is all-false. -/
theorem C6_reflexivity {T : Type} [DecidableEq T] {n : Nat}
    (x : Fin n → T) :
    (∀ i, glm.equal x x i = true) ∧ (∀ i, glm.notEqual x x i = false) := by
  constructor <;> intro i <;>
    simp [glm.equal, glm.notEqual, glm.fillLoop_apply]

/-- C7: De Morgan duality of the reductions: for every boolean vector `v`,
`all v` equals the negation of `any` applied to the complement of `v`. -/
theorem C7_demorgan {n : Nat} (v : Fin n → Bool) :
    glm.all v = !(glm.any (glm.not_ v)) := by
  cases hall : glm.all v with
  | false =>
    have h1 : ¬ ∀ i, v i = true := by
      intro h
      rw [(glm.all_eq_true_iff v).mpr h] at hall
      exact Bool.noConfusion hall
    push_neg at h1
    obtain ⟨i, hi⟩ := h1
    have h2 : glm.any (glm.not_ v) = true :=
      (glm.any_eq_true_iff _).mpr
        ⟨i, by rw [glm.not_apply, Bool.not_eq_true' ]
               exact Bool.eq_false_iff.mpr hi⟩
    rw [h2]
    rfl
  | true =>
    have h : ∀ i, v i = true := (glm.all_eq_true_iff v).mp hall
    have h2 : glm.any (glm.not_ v) = false := by
      rw [← Bool.not_eq_true, glm.any_eq_true_iff]
      rintro ⟨i, hi⟩
      rw [glm.not_apply, h i] at hi
      simp at hi
    rw [h2]
    rfl

/-- C8: applying the logical complement twice is the identity:
`not_ (not_ v) = v`. -/
theorem C8_double_negation {n : Nat} (v : Fin n → Bool) :
    glm.not_ (glm.not_ v) = v := by
  funext i
  simp [glm.not_apply]

/-- C9: every vector-returning operation (the six component-wise
comparisons and the logical complement) yields a result with exactly the
same element count as its input. -/
theorem C9_size_preservation {T : Type} [LinearOrder T] {n : Nat}
    (x y : Fin n → T) (v : Fin n → Bool) :
    (glm.components (glm.lessThan x y)).length = (glm.components x).length ∧
    (glm.components (glm.lessThanEqual x y)).length = (glm.components x).length ∧
    (glm.components (glm.greaterThan x y)).length = (glm.components x).length ∧
    (glm.components (glm.greaterThanEqual x y)).length = (glm.components x).length ∧
    (glm.components (glm.equal x y)).length = (glm.components x).length ∧
    (glm.components (glm.notEqual x y)).length = (glm.components x).length ∧
    (glm.components (glm.not_ v)).length = (glm.components v).length := by
  simp [glm.components]

/-- C10: `notEqual x y` is the logical complement of `equal x y`. -/
theorem C10_notEqual_complement {T : Type} [DecidableEq T] {n : Nat}
    (x y : Fin n → T) :
    glm.notEqual x y = glm.not_ (glm.equal x y) := by
  funext i
  simp [glm.notEqual, glm.not_, glm.equal, glm.fillLoop_apply]
